import Mathlib

/-!
Shallow embedding of the `expressjs-utils` file-operation module
(`FileUtilsError` and `FileUtils` from the single source file).

The Node.js file system is modelled as an association list from absolute
path strings to entries (files with string content, or directories); file
contents are modelled as the raw byte string handed to `writeFile`, so the
textual/binary encoding choice (which round-trips in Node for matching
flags) is the identity here.  `path.resolve` is modelled as prefixing the
working directory `/` to relative paths; segment normalization such as
`..` is not exercised by any claim and is not modelled.  Promise
resolution/rejection is an `Except`, and the mutable file system is
threaded explicitly, so each fs primitive and each dispatcher entry point
has type `FS -> Except JsError A × FS` (the state is kept on the error
path as well, since a failing call can still have mutated the store).
-/

set_option autoImplicit false

namespace FileUtilsSpec

/-- A JavaScript error value: either a raw platform error (with an
optional `code` property such as ENOENT and a `message`), or an instance
of the `FileUtilsError` class, which carries a formatted message, the
operation name, the file path, and the original error. -/
inductive JsError where
  | raw (code : Option String) (message : String)
  | fileUtilsError (message : String) (operation : String) (filePath : String)
      (originalError : JsError)
  deriving DecidableEq, Repr

/-- The `message` property of an error. -/
def JsError.msg : JsError → String
  | .raw _ m => m
  | .fileUtilsError m _ _ _ => m

/-- The `code` property: raw platform errors may carry one; a
`FileUtilsError` instance never sets one. -/
def JsError.errCode : JsError → Option String
  | .raw c _ => c
  | .fileUtilsError _ _ _ _ => none

/-- The `operation` property, present only on `FileUtilsError`. -/
def JsError.op : JsError → Option String
  | .raw _ _ => none
  | .fileUtilsError _ o _ _ => some o

/-- The `filePath` property, present only on `FileUtilsError`. -/
def JsError.path : JsError → Option String
  | .raw _ _ => none
  | .fileUtilsError _ _ p _ => some p

/-- The `originalError` property, present only on `FileUtilsError`. -/
def JsError.original : JsError → Option JsError
  | .raw _ _ => none
  | .fileUtilsError _ _ _ e => some e

/-- Whether the error is an instance of the `FileUtilsError` class. -/
def JsError.isNormalized : JsError → Bool
  | .raw _ _ => false
  | .fileUtilsError _ _ _ _ => true

/-- `FileUtilsError.formatErrorMessage`: map the error code through the
fixed table when a (truthy) code is present, otherwise pass the original
message through.  A raw error whose code is the empty string is falsy in
the source and also falls through to the message here, matching the
switch default. -/
def formatErrorMessage (error : JsError) : String :=
  match error.errCode with
  | some c =>
    match c with
    | "ENOENT" => "File not found"
    | "EACCES" => "Permission denied"
    | "ENOTDIR" => "Not a directory"
    | "EISDIR" => "Is a directory, not a file"
    | _ => error.msg
  | none => error.msg

/-- `new FileUtilsError(originalError, operation, filePath)`. -/
def mkFileUtilsError (originalError : JsError) (operation filePath : String) : JsError :=
  .fileUtilsError (formatErrorMessage originalError) operation filePath originalError

/-! ## Path model -/

/-- Whether the path is absolute (POSIX `path.isAbsolute`: it starts with
the separator). -/
def isAbsolute (p : String) : Bool :=
  match p.data with
  | [] => false
  | c :: _ => c = '/'

/-- `path.resolve`: make the path absolute against the working directory,
modelled as the root. -/
def resolve (p : String) : String :=
  if isAbsolute p then p else "/" ++ p

/-- Split a character list at every separator (the semantics of
`String.splitOn` with the one-character separator `/`). -/
def splitSlashAux : List Char → List Char → List String
  | [], acc => [String.mk acc.reverse]
  | c :: rest, acc =>
    if c = '/' then String.mk acc.reverse :: splitSlashAux rest []
    else splitSlashAux rest (c :: acc)

/-- The segments of a path, separators dropped, empty segments kept. -/
def splitSlash (p : String) : List String :=
  splitSlashAux p.data []

/-- `path.dirname`: everything before the final separator, with the root
as the floor. -/
def dirname (p : String) : String :=
  let d := String.intercalate "/" (splitSlash p).dropLast
  if d = "" then "/" else d

/-- The chain of directories `mkdir -p d` has to ensure, shortest first:
for `/a/b` this is `/a`, `/a/b`. -/
def pathChain (d : String) : List String :=
  let comps := (splitSlash d).filter (fun c => c ≠ "")
  (List.range comps.length).map
    (fun i => "/" ++ String.intercalate "/" (comps.take (i + 1)))

/-- Whether `q` lies in the tree rooted at `root` (the root itself or any
path strictly below it). -/
def inTree (root q : String) : Bool :=
  q = root || (root.data ++ ['/']).isPrefixOf q.data

/-! ## File system model -/

/-- A file system entry: a regular file with its content, or a directory. -/
inductive Entry where
  | file (content : String)
  | dir
  deriving DecidableEq, Repr

/-- The store: absolute path to entry.  The root directory is implicit
and always present. -/
abbrev FS := List (String × Entry)

/-- Look an exact path up in the store. -/
def fsLookup (fs : FS) (p : String) : Option Entry :=
  match fs.find? (fun x => x.1 = p) with
  | some x => some x.2
  | none => none

/-- What the file system holds at `p`; the root is always a directory. -/
def fsGet (fs : FS) (p : String) : Option Entry :=
  if p = "/" then some .dir else fsLookup fs p

/-- Insert or overwrite the entry at `p`. -/
def fsSet (fs : FS) (p : String) (e : Entry) : FS :=
  (p, e) :: fs.filter (fun x => x.1 ≠ p)

/-- Remove the single entry at `p`. -/
def fsErase (fs : FS) (p : String) : FS :=
  fs.filter (fun x => x.1 ≠ p)

/-- Remove the whole tree rooted at `p`. -/
def fsEraseTree (fs : FS) (p : String) : FS :=
  fs.filter (fun x => !(inTree p x.1))

/-- The raw ENOENT error a missing path produces. -/
def enoent (p : String) : JsError :=
  .raw (some "ENOENT") ("ENOENT: no such file or directory, " ++ p)

/-- The raw EISDIR error a file primitive hitting a directory produces. -/
def eisdir (p : String) : JsError :=
  .raw (some "EISDIR") ("EISDIR: illegal operation on a directory, " ++ p)

/-- The raw ENOTDIR error a path component that is a file produces. -/
def enotdir (p : String) : JsError :=
  .raw (some "ENOTDIR") ("ENOTDIR: not a directory, " ++ p)

/-- `fs.access(p, F_OK)`: succeed exactly when something exists at `p`. -/
def fsAccess (fs : FS) (p : String) : Except JsError Unit × FS :=
  match fsGet fs p with
  | some _ => (.ok (), fs)
  | none => (.error (enoent p), fs)

/-- `fs.readFile`: the whole content of a regular file. -/
def fsReadFile (fs : FS) (p : String) : Except JsError String × FS :=
  match fsGet fs p with
  | some (.file c) => (.ok c, fs)
  | some .dir => (.error (eisdir p), fs)
  | none => (.error (enoent p), fs)

/-- The parent-directory check and actual store update of `fs.writeFile`. -/
def writeParentCheck (fs : FS) (p : String) (data : String) : Except JsError Unit × FS :=
  match fsGet fs (dirname p) with
  | some .dir => (.ok (), fsSet fs p (.file data))
  | some (.file _) => (.error (enotdir (dirname p)), fs)
  | none => (.error (enoent (dirname p)), fs)

/-- `fs.writeFile`: create or overwrite the file at `p`, requiring the
parent to be an existing directory and `p` not to be a directory. -/
def fsWriteFile (fs : FS) (p : String) (data : String) : Except JsError Unit × FS :=
  match fsGet fs p with
  | some .dir => (.error (eisdir p), fs)
  | some (.file _) => writeParentCheck fs p data
  | none => writeParentCheck fs p data

/-- One directory-creation pass over an explicit chain of paths, shortest
first: skip existing directories, fail on a file in the way, create what
is missing. -/
def mkdirChain (fs : FS) : List String → Except JsError Unit × FS
  | [] => (.ok (), fs)
  | q :: rest =>
    match fsGet fs q with
    | some .dir => mkdirChain fs rest
    | some (.file _) => (.error (enotdir q), fs)
    | none => mkdirChain (fsSet fs q .dir) rest

/-- `fs.mkdir(d, recursive)`: ensure every directory on the chain down
to `d` exists. -/
def fsMkdirRec (fs : FS) (d : String) : Except JsError Unit × FS :=
  mkdirChain fs (pathChain d)

/-- `fs.unlink`: remove a single regular file. -/
def fsUnlink (fs : FS) (p : String) : Except JsError Unit × FS :=
  match fsGet fs p with
  | some (.file _) => (.ok (), fsErase fs p)
  | some .dir => (.error (eisdir p), fs)
  | none => (.error (enoent p), fs)

/-- `fs.rm(p, recursive + force)`: drop the whole tree at `p`; `force`
makes a missing or partially removed tree a success. -/
def fsRm (fs : FS) (p : String) : Except JsError Unit × FS :=
  (.ok (), fsEraseTree fs p)

/-! ## The dispatcher -/

/-- The `options` bag of `performOperation`, with the same defaults the
source applies by omission. -/
structure Options where
  ensureExists : Bool := false
  mkdir : Bool := false
  binary : Bool := false
  deriving DecidableEq, Repr

/-- The configuration object accepted by `performOperation`.  The Express
response for downloads is modelled by its presence, as its only role in
the dispatched logic is the null check and the streamed transfer. -/
structure Config where
  operation : String
  filePath : String
  options : Options := {}
  data : Option String := none
  response : Bool := false
  deriving DecidableEq, Repr

/-- What a resolved `performOperation` promise carries: a string (file
content or a success indicator) or `undefined` (download). -/
inductive OpResult where
  | str (s : String)
  | undef
  deriving DecidableEq, Repr

/-- `FileUtils.ensureFileExists`: access check that wraps its failure as
operation `ensureExists`. -/
def ensureFileExists (fs : FS) (filePath : String) : Except JsError Unit × FS :=
  match fsAccess fs filePath with
  | (.error e, s) => (.error (mkFileUtilsError e "ensureExists" filePath), s)
  | (.ok _, s) => (.ok (), s)

/-- `FileUtils.deleteFolder`: recursive forced removal that wraps its
failure as operation `deleteFolder`. -/
def deleteFolder (fs : FS) (folderPath : String) : Except JsError Unit × FS :=
  match fsRm fs folderPath with
  | (.error e, s) => (.error (mkFileUtilsError e "deleteFolder" folderPath), s)
  | (.ok _, s) => (.ok (), s)

/-- `FileUtils.downloadFile`: stream the resolved file to the response;
any transfer error is wrapped as operation `download` with the original
(unresolved) path.  The model streams successfully exactly when the
resolved path is a regular file. -/
def downloadFile (fs : FS) (filePath : String) : Except JsError Unit × FS :=
  match fsGet fs (resolve filePath) with
  | some (.file _) => (.ok (), fs)
  | some .dir => (.error (mkFileUtilsError (eisdir (resolve filePath)) "download" filePath), fs)
  | none => (.error (mkFileUtilsError (enoent (resolve filePath)) "download" filePath), fs)

/-- `FileUtils.ensureExistsAndDelete`: access check wrapping its failure
as `delete` or `deleteFolder`, and then — already here — the removal
itself (unlink for a file, forced recursive rm for a folder). -/
def ensureExistsAndDelete (fs : FS) (fullPath : String) (isFolder : Bool) :
    Except JsError Unit × FS :=
  match fsAccess fs fullPath with
  | (.error e, s) =>
    (.error (mkFileUtilsError e (if isFolder then "deleteFolder" else "delete") fullPath), s)
  | (.ok _, s) => if isFolder then fsRm s fullPath else fsUnlink s fullPath

/-- The body of the `try` block of `FileUtils.performOperation`: resolve
the path, run the two optional pre-condition steps, then branch on the
operation string exactly as the switch does. -/
def performOperationBody (cfg : Config) (fs : FS) : Except JsError OpResult × FS :=
  let fullPath := resolve cfg.filePath
  let step1 : Except JsError Unit × FS :=
    if cfg.options.ensureExists = true ∧ (cfg.operation = "read" ∨ cfg.operation = "download")
    then ensureFileExists fs fullPath
    else (.ok (), fs)
  match step1 with
  | (.error e, s) => (.error e, s)
  | (.ok _, s1) =>
    let step2 : Except JsError Unit × FS :=
      if cfg.options.mkdir = true ∧ cfg.operation = "write"
      then fsMkdirRec s1 (dirname fullPath)
      else (.ok (), s1)
    match step2 with
    | (.error e, s) => (.error e, s)
    | (.ok _, s2) =>
      if cfg.operation = "read" then
        match fsReadFile s2 fullPath with
        | (.ok c, s) => (.ok (.str c), s)
        | (.error e, s) => (.error e, s)
      else if cfg.operation = "write" then
        match cfg.data with
        | none =>
          (.error (.raw none "The data argument must be of type string or an instance of Buffer"),
            s2)
        | some d =>
          match fsWriteFile s2 fullPath d with
          | (.ok _, s) => (.ok (.str "File written successfully"), s)
          | (.error e, s) => (.error e, s)
      else if cfg.operation = "download" then
        if cfg.response = false then
          (.error (.raw none "Response object is required for download"), s2)
        else
          match downloadFile s2 cfg.filePath with
          | (.ok _, s) => (.ok .undef, s)
          | (.error e, s) => (.error e, s)
      else if cfg.operation = "delete" then
        match ensureExistsAndDelete s2 fullPath false with
        | (.error e, s) => (.error e, s)
        | (.ok _, s3) =>
          match fsUnlink s3 fullPath with
          | (.ok _, s) => (.ok (.str "File deleted successfully"), s)
          | (.error e, s) => (.error e, s)
      else if cfg.operation = "deleteFolder" then
        match ensureExistsAndDelete s2 fullPath true with
        | (.error e, s) => (.error e, s)
        | (.ok _, s3) =>
          match deleteFolder s3 fullPath with
          | (.ok _, s) => (.ok (.str "Folder deleted successfully"), s)
          | (.error e, s) => (.error e, s)
      else
        (.error (.raw none "Invalid file operation"), s2)

/-- `FileUtils.performOperation`: the body under the single top-level
catch, which wraps whatever was thrown — raw or already normalized —
into a `FileUtilsError` carrying the requested operation and the
original (unresolved) file path. -/
def performOperation (cfg : Config) (fs : FS) : Except JsError OpResult × FS :=
  match performOperationBody cfg fs with
  | (.error e, s) => (.error (mkFileUtilsError e cfg.operation cfg.filePath), s)
  | (.ok r, s) => (.ok r, s)

/-! ## Store lemmas -/

lemma fsGet_root (fs : FS) : fsGet fs "/" = some .dir := rfl

lemma find?_filter_ne (fs : FS) (p q : String) (h : q ≠ p) :
    (fs.filter (fun x => x.1 ≠ p)).find? (fun x => x.1 = q)
      = fs.find? (fun x => x.1 = q) := by
  induction fs with
  | nil => rfl
  | cons a t ih =>
    by_cases hap : a.1 = p
    · have haq : ¬(a.1 = q) := fun hq => h (hq ▸ hap)
      rw [List.filter_cons_of_neg (by simp [hap]),
        List.find?_cons_of_neg _ (by simp [haq])]
      exact ih
    · rw [List.filter_cons_of_pos (by simp [hap])]
      by_cases haq : a.1 = q
      · rw [List.find?_cons_of_pos _ (by simp [haq]),
          List.find?_cons_of_pos _ (by simp [haq])]
      · rw [List.find?_cons_of_neg _ (by simp [haq]),
          List.find?_cons_of_neg _ (by simp [haq])]
        exact ih

lemma fsGet_fsSet_self (fs : FS) (p : String) (e : Entry) (h : p ≠ "/") :
    fsGet (fsSet fs p e) p = some e := by
  simp [fsGet, fsSet, fsLookup, h, List.find?_cons]

lemma fsGet_fsSet_ne (fs : FS) (p q : String) (e : Entry) (h : q ≠ p) :
    fsGet (fsSet fs p e) q = fsGet fs q := by
  by_cases hq : q = "/"
  · subst hq; rfl
  · have hpq : ¬(p = q) := fun hh => h hh.symm
    simp only [fsGet, fsSet, fsLookup, if_neg hq]
    rw [List.find?_cons_of_neg _ (by simp [hpq]), find?_filter_ne fs p q h]

lemma fsGet_fsEraseTree_inTree (fs : FS) (root q : String) (hq : q ≠ "/")
    (h : inTree root q = true) :
    fsGet (fsEraseTree fs root) q = none := by
  have hfind : (fsEraseTree fs root).find? (fun x => x.1 = q) = none := by
    rw [List.find?_eq_none]
    intro x hx
    have hmem := List.of_mem_filter hx
    simp only [Bool.not_eq_true'] at hmem
    intro hxq
    have : inTree root x.1 = true := by
      have : x.1 = q := by simpa using hxq
      rw [this]; exact h
    rw [this] at hmem
    cases hmem
  simp [fsGet, fsLookup, hq, hfind]

lemma mkdirChain_ok (l : List String) (fs : FS)
    (hl : ∀ q ∈ l, fsGet fs q = none ∨ fsGet fs q = some .dir) :
    ∃ fs', mkdirChain fs l = (.ok (), fs') ∧
      (∀ q ∈ l, fsGet fs' q = some .dir) ∧
      (∀ x, fsGet fs' x = fsGet fs x ∨ (x ∈ l ∧ fsGet fs' x = some .dir)) := by
  induction l generalizing fs with
  | nil => exact ⟨fs, rfl, by simp, fun x => .inl rfl⟩
  | cons q rest ih =>
    rcases hq : fsGet fs q with _ | e
    · have hqroot : q ≠ "/" := by
        intro hh; rw [hh, fsGet_root] at hq; cases hq
      have hrest : ∀ r ∈ rest,
          fsGet (fsSet fs q .dir) r = none ∨ fsGet (fsSet fs q .dir) r = some .dir := by
        intro r hr
        by_cases hrq : r = q
        · subst hrq; right; exact fsGet_fsSet_self fs r .dir hqroot
        · rw [fsGet_fsSet_ne fs q r .dir hrq]
          exact hl r (List.mem_cons_of_mem q hr)
      obtain ⟨fs', h1, h2, h3⟩ := ih (fsSet fs q .dir) hrest
      refine ⟨fs', ?_, ?_, ?_⟩
      · simpa [mkdirChain, hq] using h1
      · intro r hr
        rcases List.mem_cons.mp hr with hrq | hrrest
        · subst hrq
          rcases h3 r with hpres | ⟨_, hd⟩
          · rw [hpres]; exact fsGet_fsSet_self fs r .dir hqroot
          · exact hd
        · exact h2 r hrrest
      · intro x
        rcases h3 x with hpres | ⟨hxl, hxd⟩
        · by_cases hxq : x = q
          · subst hxq
            right
            exact ⟨List.mem_cons_self x rest,
              hpres.trans (fsGet_fsSet_self fs x .dir hqroot)⟩
          · left; rw [hpres, fsGet_fsSet_ne fs q x .dir hxq]
        · right; exact ⟨List.mem_cons_of_mem q hxl, hxd⟩
    · cases e with
      | dir =>
        obtain ⟨fs', h1, h2, h3⟩ := ih fs (fun r hr => hl r (List.mem_cons_of_mem q hr))
        refine ⟨fs', by simpa [mkdirChain, hq] using h1, ?_, ?_⟩
        · intro r hr
          rcases List.mem_cons.mp hr with hrq | hrrest
          · subst hrq
            rcases h3 r with hpres | ⟨_, hd⟩
            · rw [hpres, hq]
            · exact hd
          · exact h2 r hrrest
        · intro x
          rcases h3 x with hpres | ⟨hxl, hxd⟩
          · left; exact hpres
          · right; exact ⟨List.mem_cons_of_mem q hxl, hxd⟩
      | file c =>
        rcases hl q (List.mem_cons_self q rest) with hc | hc <;> rw [hq] at hc <;> cases hc

lemma fsWriteFile_ok (fs fs' : FS) (p d : String) (u : Unit)
    (h : fsWriteFile fs p d = (.ok u, fs')) :
    p ≠ "/" ∧ fs' = fsSet fs p (.file d) := by
  have hproot : p ≠ "/" := by
    intro hh
    rw [hh] at h
    have : fsGet fs "/" = some .dir := fsGet_root fs
    unfold fsWriteFile at h
    rw [this] at h
    cases h
  refine ⟨hproot, ?_⟩
  unfold fsWriteFile at h
  rcases hg : fsGet fs p with _ | e
  · rw [hg] at h
    unfold writeParentCheck at h
    rcases hd : fsGet fs (dirname p) with _ | e2
    · rw [hd] at h; cases h
    · cases e2 with
      | file c => rw [hd] at h; cases h
      | dir => rw [hd] at h; exact (Prod.mk.injEq _ _ _ _ ▸ h).2.symm
  · cases e with
    | dir => rw [hg] at h; cases h
    | file c =>
      rw [hg] at h
      unfold writeParentCheck at h
      rcases hd : fsGet fs (dirname p) with _ | e2
      · rw [hd] at h; cases h
      · cases e2 with
        | file c2 => rw [hd] at h; cases h
        | dir => rw [hd] at h; exact (Prod.mk.injEq _ _ _ _ ▸ h).2.symm

/-! ## Dispatcher lemmas -/

lemma performOperation_ok_body (cfg : Config) (fs : FS) (r : OpResult) (fs1 : FS)
    (h : performOperation cfg fs = (.ok r, fs1)) :
    performOperationBody cfg fs = (.ok r, fs1) := by
  unfold performOperation at h
  rcases hb : performOperationBody cfg fs with ⟨res, s⟩
  rw [hb] at h
  cases res with
  | error e => simp at h
  | ok v => exact h

lemma body_write_extract (p d : String) (o : Options) (fs fs1 : FS) (r : OpResult)
    (h : performOperationBody ⟨"write", p, o, some d, false⟩ fs = (.ok r, fs1)) :
    fsGet fs1 (resolve p) = some (.file d) := by
  obtain ⟨ee, m, b⟩ := o
  unfold performOperationBody at h
  cases ee <;> cases m <;> simp at h <;>
    first
    | (rcases hmk : fsMkdirRec fs (dirname (resolve p)) with ⟨res, s2⟩
       rw [hmk] at h
       cases res with
       | error e => simp at h
       | ok u =>
         simp at h
         rcases hw : fsWriteFile s2 (resolve p) d with ⟨res2, s3⟩
         rw [hw] at h
         cases res2 with
         | error e => simp at h
         | ok u2 =>
           have h2 : s3 = fs1 := (Prod.mk.injEq _ _ _ _ ▸ h).2
           obtain ⟨hne, hset⟩ := fsWriteFile_ok s2 s3 (resolve p) d u2 hw
           rw [← h2, hset]
           exact fsGet_fsSet_self s2 (resolve p) (.file d) hne)
    | (rcases hw : fsWriteFile fs (resolve p) d with ⟨res2, s3⟩
       rw [hw] at h
       cases res2 with
       | error e => simp at h
       | ok u2 =>
         have h2 : s3 = fs1 := (Prod.mk.injEq _ _ _ _ ▸ h).2
         obtain ⟨hne, hset⟩ := fsWriteFile_ok fs s3 (resolve p) d u2 hw
         rw [← h2, hset]
         exact fsGet_fsSet_self fs (resolve p) (.file d) hne)

/-! ## Claim theorems -/

/-- C1: the delete operation on an existing regular file does NOT resolve
with the documented success indicator: `ensureExistsAndDelete` already
unlinks the file, and the dispatcher then unlinks the now-missing path a
second time, so the call removes the file (final store is empty) yet
rejects with a normalized error tagged operation delete and message
"File not found". The success return of the delete branch is
unreachable. -/
theorem delete_existing_file_removes_but_rejects :
    performOperation ⟨"delete", "/a.txt", ⟨false, false, false⟩, none, false⟩
        [("/a.txt", Entry.file "hi")]
      = (.error (.fileUtilsError "File not found" "delete" "/a.txt" (enoent "/a.txt")), []) :=
  rfl

/-- C2 counterexample: with ensureExists set and a missing path, the
error surfaced to the caller of a read is tagged with the requested
operation read, not with the sub-operation name ensureExists (which only
appears on the nested originalError). -/
theorem ensureExists_tag_not_surfaced :
    (performOperation ⟨"read", "/missing.txt", ⟨true, false, false⟩, none, false⟩ []).1
      = .error (.fileUtilsError "File not found" "read" "/missing.txt"
          (.fileUtilsError "File not found" "ensureExists" "/missing.txt"
            (enoent "/missing.txt")))
    ∧ ("read" : String) ≠ "ensureExists" :=
  ⟨rfl, by decide⟩

/-- C2 (amended): for every read or download request with
options.ensureExists set and a nonexistent resolved path, the surfaced
error is a FileUtilsError tagged with the caller's requested operation
and the original file path, whose originalError is itself a
FileUtilsError tagged "ensureExists" with the resolved path, wrapping
the raw ENOENT failure; the message "File not found" is preserved
through both wrappings. -/
theorem ensureExists_precheck_failure_surfaced (fs : FS) (p op : String) (m b resp : Bool)
    (dat : Option String) (hop : op = "read" ∨ op = "download")
    (h : fsGet fs (resolve p) = none) :
    performOperation ⟨op, p, ⟨true, m, b⟩, dat, resp⟩ fs
      = (.error (.fileUtilsError "File not found" op p
          (.fileUtilsError "File not found" "ensureExists" (resolve p)
            (enoent (resolve p)))), fs) := by
  rcases hop with hop | hop <;> subst hop <;>
    simp [performOperation, performOperationBody, ensureFileExists, fsAccess, h,
      mkFileUtilsError, formatErrorMessage, JsError.errCode, JsError.msg, enoent]

/-- Witness for C2 at a concrete download request on an empty store. -/
theorem ensureExists_precheck_failure_surfaced_witness :
    performOperation ⟨"download", "/gone.bin", ⟨true, false, true⟩, none, true⟩ []
      = (.error (.fileUtilsError "File not found" "download" "/gone.bin"
          (.fileUtilsError "File not found" "ensureExists" "/gone.bin"
            (enoent "/gone.bin"))), []) :=
  ensureExists_precheck_failure_surfaced [] "/gone.bin" "download" false true true none
    (Or.inr rfl) rfl

/-- C3 counterexample: a failing ensureExists pre-check is normalized
twice, so the surfaced error's cause (originalError) is itself an
already-normalized FileUtilsError, not a raw error. -/
theorem normalized_cause_cex :
    (performOperation ⟨"read", "/nofile.txt", ⟨true, false, false⟩, none, false⟩ []).1
      = .error (.fileUtilsError "File not found" "read" "/nofile.txt"
          (.fileUtilsError "File not found" "ensureExists" "/nofile.txt"
            (enoent "/nofile.txt")))
    ∧ JsError.isNormalized
        (.fileUtilsError "File not found" "ensureExists" "/nofile.txt"
          (enoent "/nofile.txt")) = true :=
  ⟨rfl, rfl⟩

/-- C3 (amended): every failure of performOperation is wrapped by the
top-level catch into a FileUtilsError carrying the requested operation
and file path around some cause; but that cause is not always raw —
for sub-helper failures it is itself an already-normalized
FileUtilsError, so those failures pass through the normalizer twice. -/
theorem every_failure_wrapped_at_top (cfg : Config) (fs : FS) (e : JsError) (s : FS)
    (h : performOperation cfg fs = (.error e, s)) :
    ∃ orig, e = .fileUtilsError (formatErrorMessage orig) cfg.operation cfg.filePath orig := by
  unfold performOperation at h
  rcases hb : performOperationBody cfg fs with ⟨r, s'⟩
  rw [hb] at h
  cases r with
  | ok v => simp at h
  | error e0 =>
    refine ⟨e0, ?_⟩
    have := (Prod.mk.injEq _ _ _ _ ▸ h).1
    cases this
    rfl

/-- Witness for C3 on a concrete failing call with an unknown operation. -/
theorem every_failure_wrapped_at_top_witness :
    ∃ orig,
      (JsError.fileUtilsError "Invalid file operation" "chmod" "/x"
          (.raw none "Invalid file operation"))
        = .fileUtilsError (formatErrorMessage orig) "chmod" "/x" orig :=
  every_failure_wrapped_at_top ⟨"chmod", "/x", ⟨false, false, false⟩, none, false⟩ [] _ [] rfl

/-- C4: deleting a nonexistent path (file or folder) rejects with a
normalized error whose operation field is "delete" resp. "deleteFolder"
and whose message is exactly "File not found", leaving the store
untouched. -/
theorem delete_missing_path_file_not_found (fs : FS) (p : String) (isFolder : Bool)
    (h : fsGet fs (resolve p) = none) :
    performOperation
        ⟨if isFolder then "deleteFolder" else "delete", p, ⟨false, false, false⟩, none, false⟩ fs
      = (.error (.fileUtilsError "File not found" (if isFolder then "deleteFolder" else "delete") p
          (.fileUtilsError "File not found" (if isFolder then "deleteFolder" else "delete")
            (resolve p) (enoent (resolve p)))), fs) := by
  cases isFolder <;>
    simp [performOperation, performOperationBody, ensureExistsAndDelete, fsAccess, h,
      mkFileUtilsError, formatErrorMessage, JsError.errCode, JsError.msg, enoent]

/-- Witness for C4 for both delete and deleteFolder on an empty store. -/
theorem delete_missing_path_file_not_found_witness :
    performOperation ⟨"delete", "/m.txt", ⟨false, false, false⟩, none, false⟩ []
      = (.error (.fileUtilsError "File not found" "delete" "/m.txt"
          (.fileUtilsError "File not found" "delete" "/m.txt" (enoent "/m.txt"))), [])
    ∧ performOperation ⟨"deleteFolder", "/d", ⟨false, false, false⟩, none, false⟩ []
      = (.error (.fileUtilsError "File not found" "deleteFolder" "/d"
          (.fileUtilsError "File not found" "deleteFolder" "/d" (enoent "/d"))), []) :=
  ⟨delete_missing_path_file_not_found [] "/m.txt" false rfl,
   delete_missing_path_file_not_found [] "/d" true rfl⟩

/-- C5: a successful write of data d followed by a read of the same path
with the same binary option returns exactly d. -/
theorem write_read_roundtrip (p d : String) (o : Options) (fs fs1 : FS) (r : OpResult)
    (h : performOperation ⟨"write", p, o, some d, false⟩ fs = (.ok r, fs1)) :
    (performOperation ⟨"read", p, ⟨false, false, o.binary⟩, none, false⟩ fs1).1
      = .ok (.str d) := by
  have hread : fsGet fs1 (resolve p) = some (.file d) :=
    body_write_extract p d o fs fs1 r (performOperation_ok_body _ _ _ _ h)
  simp [performOperation, performOperationBody, fsReadFile, hread]

/-- Witness for C5: the spec scenario — write "hi" to a/b/c.txt with
mkdir, then read it back. The store passed to the read is the one the
write produces from an empty store. -/
theorem write_read_roundtrip_witness :
    (performOperation ⟨"read", "a/b/c.txt", ⟨false, false, false⟩, none, false⟩
        [("/a/b/c.txt", Entry.file "hi"), ("/a/b", Entry.dir), ("/a", Entry.dir)]).1
      = .ok (.str "hi") :=
  write_read_roundtrip "a/b/c.txt" "hi" ⟨false, true, false⟩ []
    [("/a/b/c.txt", Entry.file "hi"), ("/a/b", Entry.dir), ("/a", Entry.dir)]
    (.str "File written successfully") rfl

/-- C6: deleteFolder on an existing directory resolves with the success
indicator, and afterwards neither the directory itself nor anything in
the tree below it exists (the second, forced recursive removal tolerates
the tree already being gone). -/
theorem deleteFolder_removes_tree (fs : FS) (p : String)
    (h0 : resolve p ≠ "/") (h : fsGet fs (resolve p) = some .dir) :
    (performOperation ⟨"deleteFolder", p, ⟨false, false, false⟩, none, false⟩ fs).1
      = .ok (.str "Folder deleted successfully")
    ∧ fsGet (performOperation ⟨"deleteFolder", p, ⟨false, false, false⟩, none, false⟩ fs).2
        (resolve p) = none
    ∧ ∀ q, q ≠ "/" → inTree (resolve p) q = true →
        fsGet (performOperation ⟨"deleteFolder", p, ⟨false, false, false⟩, none, false⟩ fs).2 q
          = none := by
  have hrun : performOperation ⟨"deleteFolder", p, ⟨false, false, false⟩, none, false⟩ fs
      = (.ok (.str "Folder deleted successfully"),
         fsEraseTree (fsEraseTree fs (resolve p)) (resolve p)) := by
    simp [performOperation, performOperationBody, ensureExistsAndDelete, fsAccess, h,
      deleteFolder, fsRm]
  rw [hrun]
  refine ⟨rfl, ?_, ?_⟩
  · exact fsGet_fsEraseTree_inTree _ _ _ h0 (by simp [inTree])
  · intro q hq hin
    exact fsGet_fsEraseTree_inTree _ _ _ hq hin

/-- Witness for C6 on a directory with a nested file, a subdirectory and
a nested file inside it, next to an unrelated sibling entry. -/
theorem deleteFolder_removes_tree_witness :
    (performOperation ⟨"deleteFolder", "/d", ⟨false, false, false⟩, none, false⟩
        [("/d", Entry.dir), ("/d/x.txt", Entry.file "1"), ("/d/sub", Entry.dir),
         ("/d/sub/y.txt", Entry.file "2"), ("/other", Entry.file "z")]).1
      = .ok (.str "Folder deleted successfully")
    ∧ fsGet (performOperation ⟨"deleteFolder", "/d", ⟨false, false, false⟩, none, false⟩
        [("/d", Entry.dir), ("/d/x.txt", Entry.file "1"), ("/d/sub", Entry.dir),
         ("/d/sub/y.txt", Entry.file "2"), ("/other", Entry.file "z")]).2 (resolve "/d") = none
    ∧ ∀ q, q ≠ "/" → inTree (resolve "/d") q = true →
        fsGet (performOperation ⟨"deleteFolder", "/d", ⟨false, false, false⟩, none, false⟩
          [("/d", Entry.dir), ("/d/x.txt", Entry.file "1"), ("/d/sub", Entry.dir),
           ("/d/sub/y.txt", Entry.file "2"), ("/other", Entry.file "z")]).2 q = none :=
  deleteFolder_removes_tree
    [("/d", Entry.dir), ("/d/x.txt", Entry.file "1"), ("/d/sub", Entry.dir),
     ("/d/sub/y.txt", Entry.file "2"), ("/other", Entry.file "z")] "/d" (by decide) rfl

/-- C7: a write with options.mkdir into a path none of whose parent
directories exist creates every directory on the parent chain and then
writes the file. The last two hypotheses are the well-formedness of the
path under the non-normalizing path model (the target is not one of its
own parent directories, and the parent is the root or lies on its own
chain); every path Node's path.resolve can produce satisfies them. -/
theorem write_mkdir_creates_parents (fs : FS) (p d : String) (ee b : Bool)
    (h1 : ∀ q ∈ pathChain (dirname (resolve p)), fsGet fs q = none)
    (h2 : fsGet fs (resolve p) = none)
    (h3 : resolve p ∉ pathChain (dirname (resolve p)))
    (h4 : dirname (resolve p) = "/" ∨ dirname (resolve p) ∈ pathChain (dirname (resolve p))) :
    (performOperation ⟨"write", p, ⟨ee, true, b⟩, some d, false⟩ fs).1
      = .ok (.str "File written successfully")
    ∧ (∀ q ∈ pathChain (dirname (resolve p)),
        fsGet (performOperation ⟨"write", p, ⟨ee, true, b⟩, some d, false⟩ fs).2 q = some .dir)
    ∧ fsGet (performOperation ⟨"write", p, ⟨ee, true, b⟩, some d, false⟩ fs).2 (resolve p)
      = some (.file d) := by
  obtain ⟨s2, hmk, hdirs, hpres⟩ := mkdirChain_ok (pathChain (dirname (resolve p))) fs
    (fun q hq => .inl (h1 q hq))
  have hs2p : fsGet s2 (resolve p) = none := by
    rcases hpres (resolve p) with hp | ⟨hin, _⟩
    · rw [hp]; exact h2
    · exact absurd hin h3
  have hproot : resolve p ≠ "/" := by
    intro hh
    rw [hh, fsGet_root] at h2
    cases h2
  have hparent : fsGet s2 (dirname (resolve p)) = some .dir := by
    rcases h4 with h4 | h4
    · rw [h4]; exact fsGet_root s2
    · exact hdirs _ h4
  have hwf : fsWriteFile s2 (resolve p) d = (.ok (), fsSet s2 (resolve p) (.file d)) := by
    simp [fsWriteFile, writeParentCheck, hs2p, hparent]
  have hrun : performOperation ⟨"write", p, ⟨ee, true, b⟩, some d, false⟩ fs
      = (.ok (.str "File written successfully"), fsSet s2 (resolve p) (.file d)) := by
    simp [performOperation, performOperationBody, fsMkdirRec, hmk, hwf]
  rw [hrun]
  refine ⟨rfl, ?_, ?_⟩
  · intro q hq
    have hqne : q ≠ resolve p := fun hh => h3 (hh ▸ hq)
    rw [fsGet_fsSet_ne s2 (resolve p) q (.file d) hqne]
    exact hdirs q hq
  · exact fsGet_fsSet_self s2 (resolve p) (.file d) hproot

/-- Witness for C7: writing a/b/c.txt with mkdir into an empty store
creates /a and /a/b and then the file. -/
theorem write_mkdir_creates_parents_witness :
    (performOperation ⟨"write", "a/b/c.txt", ⟨false, true, false⟩, some "hi", false⟩ []).1
      = .ok (.str "File written successfully")
    ∧ (∀ q ∈ pathChain (dirname (resolve "a/b/c.txt")),
        fsGet (performOperation ⟨"write", "a/b/c.txt", ⟨false, true, false⟩,
          some "hi", false⟩ []).2 q = some .dir)
    ∧ fsGet (performOperation ⟨"write", "a/b/c.txt", ⟨false, true, false⟩,
        some "hi", false⟩ []).2 (resolve "a/b/c.txt") = some (.file "hi") :=
  write_mkdir_creates_parents [] "a/b/c.txt" "hi" false false
    (by decide) rfl (by decide) (by decide)

/-- C8: any operation name outside the five supported ones rejects with
the generic message "Invalid file operation", for every file path,
option bag, data and response presence, leaving the store untouched. -/
theorem invalid_operation_generic_error (op p : String) (o : Options) (dat : Option String)
    (resp : Bool) (fs : FS)
    (h1 : op ≠ "read") (h2 : op ≠ "write") (h3 : op ≠ "download")
    (h4 : op ≠ "delete") (h5 : op ≠ "deleteFolder") :
    performOperation ⟨op, p, o, dat, resp⟩ fs
      = (.error (.fileUtilsError "Invalid file operation" op p
          (.raw none "Invalid file operation")), fs) := by
  simp [performOperation, performOperationBody, h1, h2, h3, h4, h5,
    mkFileUtilsError, formatErrorMessage, JsError.errCode, JsError.msg]

/-- Witness for C8 on a concrete unknown operation and a junk path. -/
theorem invalid_operation_generic_error_witness :
    performOperation ⟨"chown", "::not a path::", ⟨true, true, true⟩, some "x", true⟩ []
      = (.error (.fileUtilsError "Invalid file operation" "chown" "::not a path::"
          (.raw none "Invalid file operation")), []) :=
  invalid_operation_generic_error "chown" "::not a path::" ⟨true, true, true⟩ (some "x") true []
    (by decide) (by decide) (by decide) (by decide) (by decide)

/-- C9: formatErrorMessage maps each tabulated error code to its fixed
message and passes the original message through for any other code or
for an error without a code. -/
theorem formatErrorMessage_table :
    (∀ m : String, formatErrorMessage (.raw (some "ENOENT") m) = "File not found")
    ∧ (∀ m : String, formatErrorMessage (.raw (some "EACCES") m) = "Permission denied")
    ∧ (∀ m : String, formatErrorMessage (.raw (some "ENOTDIR") m) = "Not a directory")
    ∧ (∀ m : String, formatErrorMessage (.raw (some "EISDIR") m) = "Is a directory, not a file")
    ∧ (∀ (c m : String), c ≠ "ENOENT" → c ≠ "EACCES" → c ≠ "ENOTDIR" → c ≠ "EISDIR" →
        formatErrorMessage (.raw (some c) m) = m)
    ∧ (∀ m : String, formatErrorMessage (.raw none m) = m) := by
  refine ⟨fun m => rfl, fun m => rfl, fun m => rfl, fun m => rfl, ?_, fun m => rfl⟩
  intro c m h1 h2 h3 h4
  simp only [formatErrorMessage, JsError.errCode, JsError.msg]

/-- Witness for C9 on a mapped code, an unmapped code and a missing
code. -/
theorem formatErrorMessage_table_witness :
    formatErrorMessage (.raw (some "ENOENT") "raw enoent text") = "File not found"
    ∧ formatErrorMessage (.raw (some "EBUSY") "resource busy or locked") = "resource busy or locked"
    ∧ formatErrorMessage (.raw none "plain failure") = "plain failure" :=
  ⟨formatErrorMessage_table.1 "raw enoent text",
   formatErrorMessage_table.2.2.2.2.1 "EBUSY" "resource busy or locked"
     (by decide) (by decide) (by decide) (by decide),
   formatErrorMessage_table.2.2.2.2.2 "plain failure"⟩

/-- C10 counterexample: when options.ensureExists is set and the path is
absent, a download without a response object fails in the existence
pre-check, so the surfaced message is "File not found" rather than
"Response object is required for download". -/
theorem download_sink_check_preempted_cex :
    (performOperation ⟨"download", "/f.txt", ⟨true, false, false⟩, none, false⟩ []).1
      = .error (.fileUtilsError "File not found" "download" "/f.txt"
          (.fileUtilsError "File not found" "ensureExists" "/f.txt" (enoent "/f.txt")))
    ∧ ("File not found" : String) ≠ "Response object is required for download" :=
  ⟨rfl, by decide⟩

/-- C10 (amended): a download request without a response object and
without the ensureExists option rejects with "Response object is
required for download", tagged operation download with the request's
file path — uniformly in the store, which is left unchanged, so the
file system is never consulted. -/
theorem download_missing_sink_rejects (fs : FS) (p : String) (m b : Bool)
    (dat : Option String) :
    performOperation ⟨"download", p, ⟨false, m, b⟩, dat, false⟩ fs
      = (.error (.fileUtilsError "Response object is required for download" "download" p
          (.raw none "Response object is required for download")), fs) := by
  simp [performOperation, performOperationBody, mkFileUtilsError, formatErrorMessage,
    JsError.errCode, JsError.msg]

end FileUtilsSpec
